import Mathlib

/-!
Verification development for the peer mesh connection manager of the `ar`
repository.  The definitions below are a shallow embedding of the message
router, the join protocol, the presence/artifact replicator and the
reconnection supervisor found in `src/components/simple-peer-manager.tsx`
(the manager mounted by the gallery in `src/unnamed/part_004`), with the
locator handling of `src/components/gallery-scene.tsx` where noted.
JavaScript numbers are modelled as `Int`, possibly-absent object fields as
`Option`, and the keyed `Record` objects (`connectionsRef`, `players`) as
association lists in insertion order.
-/

namespace ArMesh

/-- Three-component position vector (`{x, y, z}` in the wire format). -/
structure Position where
  x : Int
  y : Int
  z : Int
deriving Repr, DecidableEq

/-- Payload of a `playerInfo` (PresenceAnnounce) envelope.  Every field can be
absent in a raw JavaScript object, hence the `Option`s. -/
structure PlayerInfoData where
  id : Option String
  username : Option String
  color : Option String
  position : Option Position
deriving Repr, DecidableEq

/-- Wire message envelope, tagged by the `type` string of the source.
`unknownTag` stands for any envelope whose `type` matches no switch case. -/
inductive Msg where
  | playerInfo (d : PlayerInfoData)
  | playerMove (id : Option String) (position : Option Position) (rotation : Option Int)
  | canvasData (canvasId : Option String) (imageData : Option String)
  | updateCanvas (canvasId : Option String) (imageData : Option String)
  | requestAllPlayers
  | forwardPlayerInfo (targetPeer : Option String)
  | unknownTag (tag : String)
deriving Repr, DecidableEq

/-- One entry of the gallery `players` record (part_004).  `username` and
`color` are Options because the handlers never validate that the announce
carried them; `rotation` is an Option because `handlePlayerMoved` stores the
incoming rotation field verbatim, present or not. -/
structure Player where
  username : Option String
  color : Option String
  position : Position
  rotation : Option Int
deriving Repr, DecidableEq

/-- Replicator state of the gallery component (part_004): `myId`,
`existingPlayersRef`, the `players` record, and the canvas artifacts keyed by
canvas id (`none` = default blank payload). -/
structure GalleryState where
  myId : String
  existingPlayers : List String
  players : List (String × Player)
  canvases : List (String × Option String)
deriving Repr, DecidableEq

/-- Assignment `l[k] = v` on a JavaScript record: replace in place when the
key exists, append otherwise (insertion order preserved). -/
def setKey {β : Type} (l : List (String × β)) (k : String) (v : β) : List (String × β) :=
  if l.any (fun kv => kv.1 == k) then
    l.map (fun kv => if kv.1 == k then (k, v) else kv)
  else l ++ [(k, v)]

/-- Lookup `l[k]` on a JavaScript record. -/
def getKey {β : Type} (l : List (String × β)) (k : String) : Option β :=
  (l.find? (fun kv => kv.1 == k)).map (fun kv => kv.2)

/-- Number of entries stored under key `k` (used to state uniqueness). -/
def countKey {β : Type} (l : List (String × β)) (k : String) : Nat :=
  (l.filter (fun kv => kv.1 == k)).length

/-- Presence handler `handlePlayerJoined` of part_004.  When the id is
already in `existingPlayersRef` only the position is updated; otherwise the
id is added to the set and a fresh entry (rotation 0) is stored.  A missing
position makes the source throw at `position.x` after the set insertion, so
in that corner only the set mutation persists. -/
def handlePlayerJoined (g : GalleryState) (playerId : String)
    (uname color : Option String) (pos : Option Position) : GalleryState :=
  if g.existingPlayers.contains playerId then
    match pos, getKey g.players playerId with
    | some p, some old =>
        { g with players := setKey g.players playerId { old with position := p } }
    | _, _ => g
  else
    let g1 := { g with existingPlayers := playerId :: g.existingPlayers }
    match pos with
    | some p =>
        { g1 with players := setKey g1.players playerId ⟨uname, color, p, some 0⟩ }
    | none => g1

/-- Movement handler `handlePlayerMoved` of part_004: skip own id, no-op when
the participant is unknown, otherwise update position and rotation in place
(a missing position makes the source throw before any state is returned). -/
def handlePlayerMoved (g : GalleryState) (playerId : String)
    (pos : Option Position) (rot : Option Int) : GalleryState :=
  if playerId = g.myId then g
  else
    match getKey g.players playerId, pos with
    | some old, some p =>
        { g with players := setKey g.players playerId { old with position := p, rotation := rot } }
    | _, _ => g

/-- Artifact handler `handleCanvasUpdated` of part_004: find the canvas by
id; unknown ids are dropped; for a known id the cached payload is replaced
unconditionally (decoding and the localStorage write are abstracted into the
stored value; a missing payload never fires `img.onload`, so nothing is
replaced). -/
def handleCanvasUpdated (g : GalleryState) (canvasId : Option String)
    (imageData : Option String) : GalleryState :=
  match canvasId, imageData with
  | some cid, some img =>
      if g.canvases.any (fun kv => kv.1 == cid) then
        { g with canvases := setKey g.canvases cid (some img) }
      else g
  | _, _ => g

/-- State of one `SimplePeerManager`: own identity record and the
`connectionsRef` record mapping remote peer id to a connection instance
number (`freshConn` numbers successive `DataConnection` objects so that
replacement of a stored connection is observable). -/
structure ManagerState where
  myId : String
  username : String
  myColor : String
  myPosition : Position
  connections : List (String × Nat)
  freshConn : Nat
deriving Repr, DecidableEq

/-- Remote ids currently linked (`Object.keys(connectionsRef.current)`). -/
def connKeys (m : ManagerState) : List String :=
  m.connections.map (fun kv => kv.1)

/-- Full own participant record as sent in `playerInfo` envelopes. -/
def ownInfo (m : ManagerState) : PlayerInfoData :=
  ⟨some m.myId, some m.username, some m.myColor, some m.myPosition⟩

/-- Outbound effects of one data-handler invocation: envelopes sent (in
order, with their destination peer) and outbound connection attempts made. -/
structure Effects where
  sends : List (String × Msg)
  connects : List String
deriving Repr, DecidableEq

/-- Empty effects. -/
def noEffects : Effects := ⟨[], []⟩

/-- JavaScript `data.data.id || conn.peer`: the empty string and a missing
field are both falsy, so the sending connection's peer id is substituted. -/
def jsOrId (o : Option String) (fallback : String) : String :=
  match o with
  | some s => if s = "" then fallback else s
  | none => fallback

/-- Data handler installed by `setupConnection` (`conn.on "data"`), simple
peer manager lines 275-360.  `none` models a payload that is null or lacks
the `type` tag (the `!data || !data.type` guard).  The handler mutates only
gallery state; it sends over existing connections and never opens one. -/
def routeData (m : ManagerState) (g : GalleryState) (fromPeer : String)
    (d : Option Msg) : GalleryState × Effects :=
  match d with
  | none => (g, noEffects)
  | some msg =>
    match msg with
    | .playerInfo pd =>
        if pd.id = some m.myId then (g, noEffects)
        else (handlePlayerJoined g (pd.id.getD "undefined") pd.username pd.color pd.position,
              noEffects)
    | .playerMove pid pos rot =>
        (handlePlayerMoved g (jsOrId pid fromPeer) pos rot, noEffects)
    | .canvasData cid img => (handleCanvasUpdated g cid img, noEffects)
    | .updateCanvas cid img => (handleCanvasUpdated g cid img, noEffects)
    | .requestAllPlayers =>
        (g, ⟨(fromPeer, .playerInfo (ownInfo m)) ::
              ((connKeys m).filter (fun p => p != fromPeer)).map
                (fun p => (p, .forwardPlayerInfo (some fromPeer))), []⟩)
    | .forwardPlayerInfo tgt =>
        match tgt with
        | some t =>
            if (connKeys m).contains t then (g, ⟨[(t, .playerInfo (ownInfo m))], []⟩)
            else (g, noEffects)
        | none => (g, noEffects)
    | .unknownTag _ => (g, noEffects)

/-- Envelopes sent by the `conn.on "open"` handler of `setupConnection`:
own full record first, then the roster request. -/
def onOpen (m : ManagerState) (toPeer : String) : List (String × Msg) :=
  [(toPeer, Msg.playerInfo (ownInfo m)), (toPeer, Msg.requestAllPlayers)]

/-- Connection storage at the top of `setupConnection`:
`connectionsRef.current[conn.peer] = conn`, with a fresh instance number. -/
def storeConn (m : ManagerState) (peerId : String) : ManagerState :=
  { m with connections := setKey m.connections peerId m.freshConn,
           freshConn := m.freshConn + 1 }

/-- Handler of `peer.on "connection"`: every inbound connection goes straight
to `setupConnection`, unconditionally overwriting any stored connection for
that peer id. -/
def onIncomingConn (m : ManagerState) (peerId : String) : ManagerState :=
  storeConn m peerId

/-- Outbound `connectToPeer`: no-op on self or on an already-linked id,
otherwise connect and store; returns the connection attempts made. -/
def connectToPeer (m : ManagerState) (peerId : String) : ManagerState × List String :=
  if peerId = m.myId then (m, [])
  else if (connKeys m).contains peerId then (m, [])
  else (storeConn m peerId, [peerId])

/-- Local-edit broadcast (the `canvasUpdated` window-event listener): send
`updateCanvas` to every current connection. -/
def broadcastCanvas (m : ManagerState) (canvasId imageData : String) : List (String × Msg) :=
  (connKeys m).map (fun p => (p, Msg.updateCanvas (some canvasId) (some imageData)))

/-- Error categories reported by the transport (`err.type`). -/
inductive PeerErrKind where
  | peerUnavailable
  | network
  | serverError
  | otherKind
deriving Repr, DecidableEq

/-- Observable supervisor actions: timer scheduled (with its delay in
milliseconds), timer cancelled, and an immediate in-place reconnect call. -/
inductive SupEvent where
  | scheduled (timerId delayMs : Nat)
  | cancelled (timerId : Nat)
  | reconnectAttempt
deriving Repr, DecidableEq

/-- Reconnection supervisor state: outstanding timer ids, the id currently
held by `reconnectTimeoutRef`, and a fresh-id counter. -/
structure SupState where
  timers : List Nat
  refTimer : Option Nat
  fresh : Nat
deriving Repr, DecidableEq

/-- Handler of `peer.on "error"` (simple peer manager lines 157-182):
`peer-unavailable` does nothing further; every other category clears the
referenced pending timer and schedules one 3000 ms reconnect timer. -/
def onPeerError (s : SupState) (k : PeerErrKind) : SupState × List SupEvent :=
  if k = PeerErrKind.peerUnavailable then (s, [])
  else
    match s.refTimer with
    | some tid =>
        ({ timers := s.fresh :: s.timers.filter (fun x => x != tid),
           refTimer := some s.fresh, fresh := s.fresh + 1 },
         [SupEvent.cancelled tid, SupEvent.scheduled s.fresh 3000])
    | none =>
        ({ timers := s.fresh :: s.timers,
           refTimer := some s.fresh, fresh := s.fresh + 1 },
         [SupEvent.scheduled s.fresh 3000])

/-- Handler of `peer.on "disconnected"` (lines 185-201): try an immediate
`peer.reconnect()`; only when that call throws is a 3000 ms timer scheduled,
and the catch branch stores it without clearing a pending timer. -/
def onDisconnected (s : SupState) (reconnectThrows : Bool) : SupState × List SupEvent :=
  if reconnectThrows then
    ({ timers := s.fresh :: s.timers, refTimer := some s.fresh, fresh := s.fresh + 1 },
     [SupEvent.reconnectAttempt, SupEvent.scheduled s.fresh 3000])
  else (s, [SupEvent.reconnectAttempt])

/-- Timer clearing at the top of `initializePeer`: cancel the referenced
pending timer and null the ref. -/
def initPeerTimerClear (s : SupState) : SupState × List SupEvent :=
  match s.refTimer with
  | some tid =>
      ({ s with timers := s.timers.filter (fun x => x != tid), refTimer := none },
       [SupEvent.cancelled tid])
  | none => (s, [])

/-- Number of `scheduled` events in an event list. -/
def scheduledCount (evs : List SupEvent) : Nat :=
  (evs.filter (fun e => match e with | SupEvent.scheduled _ _ => true | _ => false)).length

/-- One-outstanding-timer invariant: at most one timer exists and every
outstanding timer is the one the ref points to. -/
def oneTimerInv (s : SupState) : Prop :=
  s.timers.length ≤ 1 ∧ ∀ t ∈ s.timers, s.refTimer = some t

instance (s : SupState) : Decidable (oneTimerInv s) := by
  unfold oneTimerInv; infer_instance

/-- JavaScript `a || b` on nullable strings (empty string is falsy):
value selection for `urlParams.get("p") || urlParams.get("peer")`. -/
def jsOrStr (a b : Option String) : Option String :=
  match a with
  | some s => if s = "" then b else some s
  | none => b

/-- Session locator selection from the two URL query parameters. -/
def getLocator (p peerParam : Option String) : Option String :=
  jsOrStr p peerParam

/-- JavaScript truthiness of a nullable string. -/
def truthy : Option String → Bool
  | some s => s != ""
  | none => false

/-- Initiator decision (`if (!hostPeerId)` in the `peer.on "open"` handler):
the participant acts as initiator and rewrites the URL exactly when the
selected locator is absent or empty. -/
def isInitiatorBranch (p peerParam : Option String) : Bool :=
  !(truthy (getLocator p peerParam))

/-- Outbound attempts made by the SimplePeerManager `peer.on "open"` handler
(lines 125-144): the whole locator value is passed to `connectToPeer` as a
single identifier; there is no comma splitting. -/
def simpleJoinAttempts (p peerParam : Option String) (myId : String) : List String :=
  match getLocator p peerParam with
  | some h => if h = "" then [] else if h = myId then [] else [h]
  | none => []

/-- Split a character list on commas, accumulating the current (reversed)
segment; models JavaScript `String.prototype.split(",")`. -/
def splitCommaAux : List Char → List Char → List String
  | [], acc => [String.mk acc.reverse]
  | c :: cs, acc =>
      if c = ',' then String.mk acc.reverse :: splitCommaAux cs []
      else splitCommaAux cs (c :: acc)

/-- JavaScript `s.split(",")`: the list of comma-separated segments (never
empty; the empty string yields `[""]`). -/
def splitComma (s : String) : List String :=
  splitCommaAux s.toList []

/-- Outbound attempts made by `joinGallery` in gallery-scene.tsx (lines
859-873): split the locator on commas and attempt every truthy entry other
than the own id, one attempt per occurrence. -/
def galleryJoinAttempts (p peerParam : Option String) (myId : String) : List String :=
  match getLocator p peerParam with
  | some h =>
      if h != "" && h != myId then
        (splitComma h).filter (fun t => t != "" && t != myId)
      else []
  | none => []

/-- Network of participants for executing the join protocol, keyed by
participant id. -/
structure World where
  parts : List (String × (ManagerState × GalleryState))
deriving Repr, DecidableEq

/-- Deliver one envelope to its receiver through `routeData`, returning the
new world and the (sender, receiver, message) triples it emitted. -/
def deliver (w : World) (sender receiver : String) (msg : Msg) :
    World × List (String × String × Msg) :=
  match getKey w.parts receiver with
  | some mg =>
      let r := routeData mg.1 mg.2 sender (some msg)
      (⟨setKey w.parts receiver (mg.1, r.1)⟩,
       r.2.sends.map (fun sm => (receiver, sm.1, sm.2)))
  | none => (w, [])

/-- Drain a message queue breadth-first with explicit fuel. -/
def runQueue : Nat → World → List (String × String × Msg) → World
  | 0, w, _ => w
  | Nat.succ _, w, [] => w
  | Nat.succ fuel, w, q :: rest =>
      let r := deliver w q.1 q.2.1 q.2.2
      runQueue fuel r.1 (rest ++ r.2)

/-- Default spawn position (`{x: 0, y: 1.6, z: 5}`, y coarsened to Int). -/
def posDefault : Position := ⟨0, 1, 5⟩

/-- Helper to build a manager state. -/
def mkMgr (pid uname color : String) (conns : List (String × Nat)) (fresh : Nat) : ManagerState :=
  ⟨pid, uname, color, posDefault, conns, fresh⟩

/-- Helper to build a gallery state that already holds its own player. -/
def mkGal (pid : String) : GalleryState :=
  ⟨pid, [pid], [(pid, ⟨some "self", some "#fff", posDefault, some 0⟩)], []⟩

/-- Host `B` of the N = 2 join scenario, already linked to `C`. -/
def hostB : ManagerState := mkMgr "B" "ub" "#b" [("C", 0)] 1

/-- Existing participant `C` of the N = 2 join scenario, linked to `B`. -/
def peerC : ManagerState := mkMgr "C" "uc" "#c" [("B", 0)] 1

/-- Joiner `A` before connecting. -/
def joinerA0 : ManagerState := mkMgr "A" "ua" "#a" [] 0

/-- World after `A` dials the host `B` (locator `?p=B`) and `B` accepts the
inbound connection: `A` stores the link to `B`, `B` stores the link to `A`. -/
def joinWorld : World :=
  ⟨[("A", ((connectToPeer joinerA0 "B").1, mkGal "A")),
    ("B", (onIncomingConn hostB "A", mkGal "B")),
    ("C", (peerC, mkGal "C"))]⟩

/-- Initial queue of the join protocol: both ends of the fresh link fire
their `open` handlers. -/
def joinQueue0 : List (String × String × Msg) :=
  ((onOpen (connectToPeer joinerA0 "B").1 "B").map (fun sm => ("A", sm.1, sm.2))) ++
  ((onOpen (onIncomingConn hostB "A") "A").map (fun sm => ("B", sm.1, sm.2)))

/-- Final world after the join protocol completes (the queue drains well
within the given fuel). -/
def joinFinal : World := runQueue 32 joinWorld joinQueue0

/-- Number of Links a participant holds in a world. -/
def linksOf (w : World) (pid : String) : Nat :=
  match getKey w.parts pid with
  | some mg => mg.1.connections.length
  | none => 0

/-- PresenceAnnounce with all required fields present. -/
def announceMsg (pid uname color : String) (pos : Position) : Msg :=
  Msg.playerInfo ⟨some pid, some uname, some color, some pos⟩

/-- Fold a list of inbound envelopes through the data handler, keeping the
gallery state (the handler never mutates the manager state). -/
def applyMsgs (m : ManagerState) (g : GalleryState) (fromPeer : String)
    (msgs : List Msg) : GalleryState :=
  msgs.foldl (fun acc msg => (routeData m acc fromPeer (some msg)).1) g

/-- Announce content: (username, color, position). -/
abbrev Ann := String × String × Position

/-- Position carried by the most recent announce: the last of `rest`, or `p`
when `rest` is empty. -/
def lastPos (p : Position) (rest : List Ann) : Position :=
  match rest with
  | [] => p
  | a :: t => lastPos a.2.2 t

/-- Participant `C` of claim C1's counterexample: linked to `B` only when the
introduction naming `A` arrives. -/
def mgrRelayC : ManagerState := mkMgr "C" "uc" "#c" [("B", 0)] 1

/-- Gallery state of participant `C` in claim C1's counterexample. -/
def galRelayC : GalleryState := mkGal "C"

/-- Participant for claim C1's witness: already linked to `A`. -/
def mgrRelayW : ManagerState := mkMgr "W" "uw" "#w" [("A", 0)] 1

/-- Gallery state for claim C1's witness. -/
def galRelayW : GalleryState := mkGal "W"

/-- Roster host for claim C2's witness, holding links to `X` and `Y`. -/
def mgrRosterW : ManagerState := mkMgr "H" "uh" "#h" [("X", 0), ("Y", 1)] 2

/-- Gallery state for claim C2's witness. -/
def galRosterW : GalleryState := mkGal "H"

/-- Participant `B` of claim C3's counterexample, linked to `A` and `C`. -/
def mgrArtifactB : ManagerState := mkMgr "B" "ub" "#b" [("A", 0), ("C", 1)] 2

/-- Gallery state of `B` in claim C3's counterexample, holding the canvas
`north-0` with the default payload. -/
def galArtifactB : GalleryState :=
  ⟨"B", ["B"], [("B", ⟨some "self", some "#fff", posDefault, some 0⟩)], [("north-0", none)]⟩

/-- Participant `A` of the 3-mesh in claim C3, linked to `B` and `C`. -/
def mgrArtifactA : ManagerState := mkMgr "A" "ua" "#a" [("B", 0), ("C", 1)] 2

/-- Fresh manager for the presence claims C4 and C5. -/
def mgrPresence : ManagerState := mkMgr "M" "um" "#m" [] 0

/-- Empty gallery for the presence claims C4 and C5. -/
def galPresence : GalleryState := ⟨"M", [], [], []⟩

/-- Concrete position used in announces. -/
def posOne : Position := ⟨1, 2, 3⟩

/-- Second concrete position used in announces. -/
def posTwo : Position := ⟨4, 5, 6⟩

/-- Fresh supervisor state (no timer outstanding). -/
def supZero : SupState := ⟨[], none, 0⟩

/-- Manager for claim C9 already holding a link to `"x"` (instance 0). -/
def mgrLinkQ : ManagerState := mkMgr "Q" "uq" "#q" [("x", 0)] 1

/-- Manager for claim C10's witness. -/
def mgrMoveT : ManagerState := mkMgr "T" "ut" "#t" [] 0

/-- Gallery for claim C10's witness: remote participant `S` is known. -/
def galMoveT : GalleryState :=
  ⟨"T", ["T", "S"], [("S", ⟨some "us", some "#s", posDefault, some 0⟩)], []⟩

/-- Whether participant `pid` has a Participant entry for `other` in its
gallery state of world `w`. -/
def playersKnownBy (w : World) (pid other : String) : Bool :=
  match getKey w.parts pid with
  | some mg => mg.2.players.any (fun kv => kv.1 == other)
  | none => false

/-!
Helper lemmas about the JavaScript-record operations.
-/

theorem find?_replace_of_any {β : Type} :
    ∀ (l : List (String × β)) (k : String) (v : β),
      l.any (fun kv => kv.1 == k) = true →
      (l.map (fun kv => if kv.1 == k then (k, v) else kv)).find? (fun kv => kv.1 == k)
        = some (k, v) := by
  intro l k v h
  induction l with
  | nil => simp at h
  | cons hd tl ih =>
      by_cases hk : hd.1 = k
      · simp [hk]
      · have hb : (hd.1 == k) = false := by simp [hk]
        simp only [List.map_cons, hb, Bool.false_eq_true, if_false]
        rw [List.find?_cons_of_neg _ (by simp [hk])]
        apply ih
        simpa [hb] using h

theorem find?_append_single_of_not_any {β : Type} :
    ∀ (l : List (String × β)) (k : String) (v : β),
      l.any (fun kv => kv.1 == k) = false →
      (l ++ [(k, v)]).find? (fun kv => kv.1 == k) = some (k, v) := by
  intro l k v h
  induction l with
  | nil => simp
  | cons hd tl ih =>
      simp only [List.any_cons, Bool.or_eq_false_iff] at h
      rw [List.cons_append, List.find?_cons_of_neg _ (by simp [h.1] )]
      exact ih h.2

theorem getKey_setKey_self {β : Type} (l : List (String × β)) (k : String) (v : β) :
    getKey (setKey l k v) k = some v := by
  unfold getKey setKey
  by_cases h : l.any (fun kv => kv.1 == k)
  · rw [if_pos h, find?_replace_of_any l k v h]
    rfl
  · simp only [Bool.not_eq_true] at h
    rw [if_neg (by simp [h]), find?_append_single_of_not_any l k v h]
    rfl

theorem countKey_map_replace {β : Type} (k : String) (v : β) :
    ∀ (l : List (String × β)),
      countKey (l.map (fun kv => if kv.1 == k then (k, v) else kv)) k = countKey l k := by
  intro l
  unfold countKey
  induction l with
  | nil => rfl
  | cons hd tl ih =>
      rw [List.map_cons]
      by_cases hk : hd.1 = k
      · have h1 : (if hd.1 == k then (k, v) else hd) = (k, v) := by simp [hk]
        have h2 : (((k, v) : String × β).1 == k) = true := by simp
        have h3 : (hd.1 == k) = true := by simp [hk]
        rw [h1, List.filter_cons, List.filter_cons, h2, h3, if_pos rfl, if_pos rfl,
           List.length_cons, List.length_cons, ih]
      · have h1 : (if hd.1 == k then (k, v) else hd) = hd := by simp [hk]
        have h3 : (hd.1 == k) = false := by simp [hk]
        rw [h1, List.filter_cons, List.filter_cons, h3, if_neg Bool.false_ne_true,
           if_neg Bool.false_ne_true]
        exact ih

theorem keys_map_replace {β : Type} (k : String) (v : β) :
    ∀ (l : List (String × β)),
      (l.map (fun kv => if kv.1 == k then (k, v) else kv)).map (fun kv => kv.1)
        = l.map (fun kv => kv.1) := by
  intro l
  induction l with
  | nil => rfl
  | cons hd tl ih =>
      rw [List.map_cons]
      by_cases hk : hd.1 = k
      · have h1 : (if hd.1 == k then (k, v) else hd) = (k, v) := by simp [hk]
        rw [h1, List.map_cons, List.map_cons, ih, hk]
      · have h1 : (if hd.1 == k then (k, v) else hd) = hd := by simp [hk]
        rw [h1, List.map_cons, List.map_cons, ih]

theorem countKey_eq_zero_of_not_any {β : Type} (l : List (String × β)) (k : String)
    (h : l.any (fun kv => kv.1 == k) = false) : countKey l k = 0 := by
  unfold countKey
  have hnil : l.filter (fun kv => kv.1 == k) = [] := by
    apply List.filter_eq_nil_iff.mpr
    intro a ha hcon
    have hany : l.any (fun kv => kv.1 == k) = true := List.any_eq_true.mpr ⟨a, ha, hcon⟩
    rw [h] at hany
    exact Bool.false_ne_true hany
  rw [hnil]
  rfl

theorem countKey_setKey_of_any {β : Type} (l : List (String × β)) (k : String) (v : β)
    (h : l.any (fun kv => kv.1 == k) = true) :
    countKey (setKey l k v) k = countKey l k := by
  unfold setKey
  rw [if_pos h]
  exact countKey_map_replace k v l

theorem countKey_setKey_of_not_any {β : Type} (l : List (String × β)) (k : String) (v : β)
    (h : l.any (fun kv => kv.1 == k) = false) :
    countKey (setKey l k v) k = countKey l k + 1 := by
  unfold setKey
  rw [if_neg (by simp [h])]
  unfold countKey
  rw [List.filter_append]
  have h2 : ([((k, v) : String × β)].filter (fun kv => kv.1 == k)) = [(k, v)] := by simp
  rw [h2, List.length_append]
  rfl

theorem keys_setKey {β : Type} (l : List (String × β)) (k : String) (v : β) :
    (setKey l k v).map (fun kv => kv.1)
      = if l.any (fun kv => kv.1 == k) then l.map (fun kv => kv.1)
        else l.map (fun kv => kv.1) ++ [k] := by
  unfold setKey
  by_cases h : l.any (fun kv => kv.1 == k)
  · rw [if_pos h, if_pos h, keys_map_replace]
  · simp only [Bool.not_eq_true] at h
    rw [if_neg (by simp [h]), if_neg (by simp [h]), List.map_append]
    rfl

theorem any_of_getKey_some {β : Type} {l : List (String × β)} {k : String} {v : β}
    (h : getKey l k = some v) : l.any (fun kv => kv.1 == k) = true := by
  unfold getKey at h
  cases hf : l.find? (fun kv => kv.1 == k) with
  | none => rw [hf] at h; simp at h
  | some kv =>
      have hmem := List.mem_of_find?_eq_some hf
      have hp := List.find?_some hf
      exact List.any_eq_true.mpr ⟨kv, hmem, hp⟩

theorem not_mem_keys_of_not_any {β : Type} {l : List (String × β)} {k : String}
    (h : l.any (fun kv => kv.1 == k) = false) : k ∉ l.map (fun kv => kv.1) := by
  intro hm
  obtain ⟨kv, hkv, hfst⟩ := List.mem_map.mp hm
  have hany : l.any (fun kv => kv.1 == k) = true :=
    List.any_eq_true.mpr ⟨kv, hkv, by simp [hfst]⟩
  rw [h] at hany
  exact Bool.false_ne_true hany

theorem keys_contains_iff_any {β : Type} (l : List (String × β)) (k : String) :
    (l.map (fun kv => kv.1)).contains k = true ↔ l.any (fun kv => kv.1 == k) = true := by
  rw [List.contains_iff_exists_mem_beq, List.any_eq_true]
  constructor
  · rintro ⟨x, hx, hbeq⟩
    obtain ⟨kv, hkv, hfst⟩ := List.mem_map.mp hx
    exact ⟨kv, hkv, by rw [hfst]; rwa [Bool.beq_comm] at hbeq⟩
  · rintro ⟨kv, hkv, hbeq⟩
    exact ⟨kv.1, List.mem_map.mpr ⟨kv, hkv, rfl⟩, by rwa [Bool.beq_comm] at hbeq⟩

/-- C5: a payload that is null or lacks the message-kind tag is dropped with
no mutation and no effects; an envelope with an unrecognized kind is ignored
the same way; but a recognized kind is not field-validated — a
PresenceAnnounce whose data object misses the required username and color
fields still creates a Participant entry (with absent name and color). -/
theorem message_validation_guard_behavior :
    (∀ (m : ManagerState) (g : GalleryState) (fromPeer : String),
        routeData m g fromPeer none = (g, noEffects))
  ∧ (∀ (m : ManagerState) (g : GalleryState) (fromPeer tag : String),
        routeData m g fromPeer (some (Msg.unknownTag tag)) = (g, noEffects))
  ∧ (routeData mgrPresence galPresence "B"
        (some (Msg.playerInfo ⟨some "Z", none, none, some posOne⟩))).1.players
      = [("Z", ⟨none, none, posOne, some 0⟩)] := by
  refine ⟨fun m g f => rfl, fun m g f t => rfl, by decide⟩

/-- C5 counterexample: the claim that a malformed payload (missing required
fields) never reaches dependent state is false — an announce missing its
username and color fields mutates the Participant set. -/
theorem malformed_payload_mutation_cex :
    (routeData mgrPresence galPresence "B"
        (some (Msg.playerInfo ⟨some "Y", none, none, some posTwo⟩))).1
      ≠ galPresence := by decide

/-- C6: a `peer-unavailable` transport error is non-fatal — the handler does
nothing further (no restart, no timer); every other error category cancels
any pending timer and schedules exactly one reconnect timer with a 3000 ms
delay; a disconnect performs an immediate in-place reconnect attempt with no
timer, and only when that attempt throws is one 3000 ms timer scheduled. -/
theorem supervisor_error_and_disconnect_policy :
    (∀ s : SupState, onPeerError s PeerErrKind.peerUnavailable = (s, []))
  ∧ (∀ (s : SupState) (k : PeerErrKind), k ≠ PeerErrKind.peerUnavailable →
        scheduledCount (onPeerError s k).2 = 1
      ∧ (onPeerError s k).2.getLast? = some (SupEvent.scheduled s.fresh 3000))
  ∧ (∀ s : SupState, onDisconnected s false = (s, [SupEvent.reconnectAttempt]))
  ∧ (∀ s : SupState,
        (onDisconnected s true).2
          = [SupEvent.reconnectAttempt, SupEvent.scheduled s.fresh 3000]) := by
  refine ⟨fun s => by simp [onPeerError], ?_, fun s => rfl, fun s => rfl⟩
  intro s k hk
  cases hr : s.refTimer with
  | none => simp [onPeerError, hk, hr, scheduledCount]
  | some tid => simp [onPeerError, hk, hr, scheduledCount]

/-- C6 witness: a `network` error on the fresh supervisor state schedules
exactly one timer. -/
theorem supervisor_error_and_disconnect_policy_witness :
    scheduledCount (onPeerError supZero PeerErrKind.network).2 = 1 :=
  (supervisor_error_and_disconnect_policy.2.1 supZero PeerErrKind.network (by decide)).1

/-- C6 counterexample: the claim that a disconnect schedules one reconnect
timer after a fixed 3-second delay is false — when the immediate
`peer.reconnect()` call does not throw, the state is unchanged and no timer
is scheduled at all. -/
theorem disconnect_schedules_no_timer_cex :
    onDisconnected supZero false = (supZero, [SupEvent.reconnectAttempt])
    ∧ scheduledCount (onDisconnected supZero false).2 = 0 := by decide

/-- C7: on the error path and the `initializePeer` path the pending timer is
cancelled before (or instead of) scheduling, so the one-outstanding-timer
invariant is preserved there; but the disconnect-failure path prepends a new
timer without cancelling the outstanding one. -/
theorem reconnect_timer_error_path_exclusive :
    (∀ (s : SupState) (k : PeerErrKind), oneTimerInv s → oneTimerInv (onPeerError s k).1)
  ∧ (∀ s : SupState, oneTimerInv s → oneTimerInv (initPeerTimerClear s).1)
  ∧ (∀ s : SupState, oneTimerInv s → oneTimerInv (onDisconnected s false).1)
  ∧ (∀ s : SupState, (onDisconnected s true).1.timers = s.fresh :: s.timers) := by
  have hfilter : ∀ (s : SupState) (tid : Nat), s.refTimer = some tid → oneTimerInv s →
      s.timers.filter (fun x => x != tid) = [] := by
    intro s tid hr h
    apply List.filter_eq_nil_iff.mpr
    intro x hx
    have := h.2 x hx
    rw [hr] at this
    have hx2 : x = tid := by injection this.symm
    simp [hx2]
  refine ⟨?_, ?_, ?_, fun s => by simp [onDisconnected]⟩
  · intro s k h
    by_cases hk : k = PeerErrKind.peerUnavailable
    · simpa [onPeerError, hk] using h
    · cases hr : s.refTimer with
      | some tid =>
          have hnil := hfilter s tid hr h
          simp [onPeerError, hk, hr, hnil, oneTimerInv]
      | none =>
          have hnil : s.timers = [] := by
            cases ht : s.timers with
            | nil => rfl
            | cons hd tl =>
                have := h.2 hd (by rw [ht]; exact List.mem_cons_self hd tl)
                rw [hr] at this
                exact absurd this (by simp)
          simp [onPeerError, hk, hr, hnil, oneTimerInv]
  · intro s h
    cases hr : s.refTimer with
    | some tid =>
        have hnil := hfilter s tid hr h
        simp [initPeerTimerClear, hr, hnil, oneTimerInv]
    | none => simpa [initPeerTimerClear, hr] using h
  · intro s h
    simpa [onDisconnected] using h

/-- C7 witness: the invariant survives a `network` error on the fresh
supervisor state. -/
theorem reconnect_timer_error_path_exclusive_witness :
    oneTimerInv (onPeerError supZero PeerErrKind.network).1 :=
  reconnect_timer_error_path_exclusive.1 supZero PeerErrKind.network (by decide)

/-- C7 counterexample: the claim that two reconnect timers never coexist is
false — a `network` error followed by a disconnect whose in-place reconnect
throws leaves two outstanding timers. -/
theorem two_timers_coexist_cex :
    ((onDisconnected (onPeerError supZero PeerErrKind.network).1 true).1.timers.length = 2)
    ∧ ¬ oneTimerInv (onDisconnected (onPeerError supZero PeerErrKind.network).1 true).1 := by
  decide

/-- C9: the Link store is keyed by remote identifier, so key-uniqueness is
preserved by inbound and outbound storage; a second outbound attempt to a
linked identifier (or to self) is a no-op; but a second inbound connection
from a linked identifier keeps the key while replacing the stored connection
instance with the fresh one. -/
theorem link_uniqueness_and_second_attempts :
    (∀ (m : ManagerState) (p : String), (connKeys m).contains p = true →
        connectToPeer m p = (m, []))
  ∧ (∀ m : ManagerState, connectToPeer m m.myId = (m, []))
  ∧ (∀ (m : ManagerState) (p : String),
        (connKeys m).Nodup → (connKeys (onIncomingConn m p)).Nodup)
  ∧ (∀ (m : ManagerState) (p : String),
        (connKeys m).Nodup → (connKeys (connectToPeer m p).1).Nodup)
  ∧ (∀ (m : ManagerState) (p : String), (connKeys m).contains p = true →
        connKeys (onIncomingConn m p) = connKeys m
        ∧ getKey (onIncomingConn m p).connections p = some m.freshConn) := by
  have hstore : ∀ (m : ManagerState) (p : String),
      (connKeys m).Nodup → (connKeys (storeConn m p)).Nodup := by
    intro m p h
    show ((setKey m.connections p m.freshConn).map (fun kv => kv.1)).Nodup
    rw [keys_setKey]
    by_cases ha : m.connections.any (fun kv => kv.1 == p)
    · rwa [if_pos ha]
    · simp only [Bool.not_eq_true] at ha
      rw [if_neg (by simp [ha]), List.nodup_append]
      exact ⟨h, List.nodup_singleton p,
             (List.disjoint_singleton).mpr (not_mem_keys_of_not_any ha)⟩
  refine ⟨?_, ?_, hstore, ?_, ?_⟩
  · intro m p h
    unfold connectToPeer
    by_cases hp : p = m.myId
    · rw [if_pos hp]
    · rw [if_neg hp, if_pos h]
  · intro m
    unfold connectToPeer
    rw [if_pos rfl]
  · intro m p h
    unfold connectToPeer
    by_cases hp : p = m.myId
    · rwa [if_pos hp]
    · by_cases hc : (connKeys m).contains p
      · rwa [if_neg hp, if_pos hc]
      · rw [if_neg hp, if_neg hc]
        exact hstore m p h
  · intro m p h
    have ha : m.connections.any (fun kv => kv.1 == p) = true :=
      (keys_contains_iff_any m.connections p).mp h
    constructor
    · show (setKey m.connections p m.freshConn).map (fun kv => kv.1) = _
      rw [keys_setKey, if_pos ha]
      rfl
    · exact getKey_setKey_self m.connections p m.freshConn

/-- C9 witness: an outbound attempt to the already-linked identifier is a
no-op on the concrete one-link manager. -/
theorem link_uniqueness_and_second_attempts_witness :
    connectToPeer mgrLinkQ "x" = (mgrLinkQ, []) :=
  link_uniqueness_and_second_attempts.1 mgrLinkQ "x" (by decide)

/-- C9 counterexample: the claim that a second inbound attempt to a linked
identifier is a no-op (neither duplicating nor replacing the Link) is false —
the inbound handler stores the new connection over the old one. -/
theorem inbound_replaces_link_cex :
    (onIncomingConn mgrLinkQ "x").connections = [("x", 1)]
    ∧ mgrLinkQ.connections = [("x", 0)]
    ∧ onIncomingConn mgrLinkQ "x" ≠ mgrLinkQ := by decide

/-- C10: a `playerMove` envelope without an id field is not dropped: the
router substitutes the sending connection's peer identifier and invokes the
movement handler with it, and when that participant is known its position
and rotation are updated to the carried values. -/
theorem playerMove_missing_id_fallback :
    (∀ (m : ManagerState) (g : GalleryState) (fromPeer : String)
        (pos : Option Position) (rot : Option Int),
        routeData m g fromPeer (some (Msg.playerMove none pos rot)) =
          (handlePlayerMoved g fromPeer pos rot, noEffects))
  ∧ (∀ (g : GalleryState) (fromPeer : String) (p : Position) (rot : Option Int) (old : Player),
        fromPeer ≠ g.myId →
        getKey g.players fromPeer = some old →
        getKey (handlePlayerMoved g fromPeer (some p) rot).players fromPeer =
          some ⟨old.username, old.color, p, rot⟩) := by
  refine ⟨fun m g f pos rot => rfl, ?_⟩
  intro g fromPeer p rot old hne hold
  unfold handlePlayerMoved
  rw [if_neg hne, hold]
  exact getKey_setKey_self g.players fromPeer _

/-- C10 witness: a move without an id from the known participant `S` updates
that participant's entry. -/
theorem playerMove_missing_id_fallback_witness :
    getKey (handlePlayerMoved galMoveT "S" (some posOne) (some 2)).players "S" =
      some ⟨some "us", some "#s", posOne, some 2⟩ :=
  playerMove_missing_id_fallback.2 galMoveT "S" posOne (some 2)
    ⟨some "us", some "#s", posDefault, some 0⟩ (by decide) (by decide)

/-- C1: on receiving `forwardPlayerInfo` (RelayIntroduction) naming a target,
the receiver sends its own `playerInfo` announce to the target only when a
Link to the target already exists; when none exists the introduction is
dropped — no send and no connection attempt happens.  Consequently the join
protocol converges to a full mesh only for a single existing participant:
with two already-meshed participants `B`, `C` and joiner `A` (locator names
the host `B`), the protocol ends with `A` holding one Link, `B` holding one
additional Link, and `C` unchanged. -/
theorem relayIntroduction_existing_link_only :
    (∀ (m : ManagerState) (g : GalleryState) (fromPeer t : String),
        (connKeys m).contains t = true →
        routeData m g fromPeer (some (Msg.forwardPlayerInfo (some t))) =
          (g, ⟨[(t, Msg.playerInfo (ownInfo m))], []⟩))
  ∧ (∀ (m : ManagerState) (g : GalleryState) (fromPeer t : String),
        (connKeys m).contains t = false →
        routeData m g fromPeer (some (Msg.forwardPlayerInfo (some t))) = (g, noEffects))
  ∧ linksOf joinFinal "A" = 1 ∧ linksOf joinFinal "B" = 2 ∧ linksOf joinFinal "C" = 1 := by
  refine ⟨?_, ?_, by decide, by decide, by decide⟩
  · intro m g f t h
    simp only [routeData]
    rw [if_pos h]
  · intro m g f t h
    simp only [routeData]
    rw [if_neg (by simpa using h)]

/-- C1 witness: a participant already linked to the target `A` answers the
introduction with its announce over that existing Link. -/
theorem relayIntroduction_existing_link_only_witness :
    routeData mgrRelayW galRelayW "B" (some (Msg.forwardPlayerInfo (some "A")))
      = (galRelayW, ⟨[("A", Msg.playerInfo (ownInfo mgrRelayW))], []⟩) :=
  relayIntroduction_existing_link_only.1 mgrRelayW galRelayW "B" "A" (by decide)

/-- C1 counterexample: participant `C`, introduced to target `A` with no
Link to `A`, sends nothing and opens nothing; and in the executed N = 2 join
scenario the joiner ends with one Link instead of two, `C` gains no Link and
never even learns of the joiner. -/
theorem relayIntroduction_claim_cex :
    routeData mgrRelayC galRelayC "B" (some (Msg.forwardPlayerInfo (some "A")))
      = (galRelayC, noEffects)
    ∧ linksOf joinFinal "A" = 1
    ∧ linksOf joinFinal "C" = 1
    ∧ playersKnownBy joinFinal "C" "A" = false := by decide

/-- C2: when a Link opens the opener sends its full `playerInfo` record and
then `requestAllPlayers`, in that order; and a participant receiving
`requestAllPlayers` keeps its state, opens no connection, replies first with
its own `playerInfo` on the same Link, sends `forwardPlayerInfo` naming the
requester to every other current Link, and sends nothing else — in
particular no forward goes to the requester itself. -/
theorem link_open_then_roster_protocol :
    (∀ (m : ManagerState) (toPeer : String),
        onOpen m toPeer
          = [(toPeer, Msg.playerInfo (ownInfo m)), (toPeer, Msg.requestAllPlayers)])
  ∧ (∀ (m : ManagerState) (g : GalleryState) (fromPeer : String),
        (routeData m g fromPeer (some Msg.requestAllPlayers)).1 = g
      ∧ (routeData m g fromPeer (some Msg.requestAllPlayers)).2.connects = []
      ∧ ((routeData m g fromPeer (some Msg.requestAllPlayers)).2.sends.head? =
          some (fromPeer, Msg.playerInfo (ownInfo m)))
      ∧ (∀ p, p ∈ connKeys m → p ≠ fromPeer →
          (p, Msg.forwardPlayerInfo (some fromPeer))
            ∈ (routeData m g fromPeer (some Msg.requestAllPlayers)).2.sends)
      ∧ (∀ pm, pm ∈ (routeData m g fromPeer (some Msg.requestAllPlayers)).2.sends →
          pm = (fromPeer, Msg.playerInfo (ownInfo m)) ∨
          (pm.1 ≠ fromPeer ∧ pm.1 ∈ connKeys m
            ∧ pm.2 = Msg.forwardPlayerInfo (some fromPeer)))) := by
  refine ⟨fun m toPeer => rfl, ?_⟩
  intro m g fromPeer
  refine ⟨rfl, rfl, rfl, ?_, ?_⟩
  · intro p hp hne
    apply List.mem_cons_of_mem
    exact List.mem_map.mpr ⟨p, List.mem_filter.mpr ⟨hp, by simp [hne]⟩, rfl⟩
  · intro pm hpm
    rcases List.mem_cons.mp hpm with h | h
    · exact Or.inl h
    · obtain ⟨q, hq, hqe⟩ := List.mem_map.mp h
      have hf := List.mem_filter.mp hq
      refine Or.inr ?_
      rw [← hqe]
      exact ⟨by simpa using hf.2, hf.1, rfl⟩

/-- C2 witness: a host linked to `X` and `Y`, receiving the roster request
from `X`, forwards the introduction naming `X` to `Y`. -/
theorem link_open_then_roster_protocol_witness :
    ("Y", Msg.forwardPlayerInfo (some "X"))
      ∈ (routeData mgrRosterW galRosterW "X" (some Msg.requestAllPlayers)).2.sends :=
  (link_open_then_roster_protocol.2 mgrRosterW galRosterW "X").2.2.2.1 "Y"
    (by decide) (by decide)

/-- C3: an inbound `updateCanvas` (ArtifactUpdate) is applied through the
canvas handler with no sends and no connection attempts at all; for a known
artifact identifier the cached payload is replaced unconditionally, for an
unknown identifier nothing changes; and in the fully linked 3-mesh the
update still reaches `B` and `C` because `A`'s local broadcast sends it
directly to both, while the receivers relay nothing back. -/
theorem artifact_update_local_apply_only :
    (∀ (m : ManagerState) (g : GalleryState) (fromPeer : String)
        (cid img : Option String),
        routeData m g fromPeer (some (Msg.updateCanvas cid img)) =
          (handleCanvasUpdated g cid img, noEffects))
  ∧ (∀ (g : GalleryState) (c v : String),
        g.canvases.any (fun kv => kv.1 == c) = true →
        getKey (handleCanvasUpdated g (some c) (some v)).canvases c = some (some v))
  ∧ (∀ (g : GalleryState) (c v : String),
        g.canvases.any (fun kv => kv.1 == c) = false →
        handleCanvasUpdated g (some c) (some v) = g)
  ∧ broadcastCanvas mgrArtifactA "north-0" "img1"
      = [("B", Msg.updateCanvas (some "north-0") (some "img1")),
         ("C", Msg.updateCanvas (some "north-0") (some "img1"))] := by
  refine ⟨fun m g f cid img => rfl, ?_, ?_, by decide⟩
  · intro g c v h
    simp only [handleCanvasUpdated]
    rw [if_pos h]
    exact getKey_setKey_self g.canvases c (some v)
  · intro g c v h
    simp only [handleCanvasUpdated]
    rw [if_neg (by simp [h])]

/-- C3 witness: a known canvas id gets its cached payload replaced. -/
theorem artifact_update_local_apply_only_witness :
    getKey (handleCanvasUpdated galArtifactB (some "north-0") (some "img2")).canvases "north-0"
      = some (some "img2") :=
  artifact_update_local_apply_only.2.1 galArtifactB "north-0" "img2" (by decide)

/-- C3 counterexample: participant `B`, linked to `A` and `C`, receives an
ArtifactUpdate from `A`; it replaces its cached artifact but emits zero
sends — in particular nothing is re-broadcast to the other Link `C`, so the
claimed flood re-broadcast does not exist. -/
theorem artifact_rebroadcast_claim_cex :
    (routeData mgrArtifactB galArtifactB "A"
        (some (Msg.updateCanvas (some "north-0") (some "img1")))).2.sends = []
    ∧ (routeData mgrArtifactB galArtifactB "A"
        (some (Msg.updateCanvas (some "north-0") (some "img1")))).1.canvases
        = [("north-0", some "img1")]
    ∧ "C" ∈ connKeys mgrArtifactB ∧ "C" ≠ "A" := by decide

/-- C8: the locator comes from query parameter `p`, falling back to `peer`
when `p` is absent or empty; absence (or emptiness) of both selects the
initiator branch; the SimplePeerManager variant does not split the value —
a non-empty, non-self locator produces exactly one connection attempt to
the entire string; the gallery-scene variant splits on commas and attempts
every non-empty entry other than the own id, one attempt per occurrence. -/
theorem locator_selection_and_join_attempts :
    (∀ b : Option String, getLocator none b = b)
  ∧ (∀ (a : String) (b : Option String), a ≠ "" → getLocator (some a) b = some a)
  ∧ (∀ b : Option String, getLocator (some "") b = b)
  ∧ isInitiatorBranch none none = true
  ∧ (∀ a : String, a ≠ "" → isInitiatorBranch (some a) none = false)
  ∧ (∀ h myId : String, h ≠ "" → h ≠ myId →
        simpleJoinAttempts (some h) none myId = [h])
  ∧ (∀ h myId t : String, h ≠ "" → h ≠ myId →
        (t ∈ galleryJoinAttempts (some h) none myId ↔
          (t ∈ splitComma h ∧ t ≠ "" ∧ t ≠ myId))) := by
  refine ⟨fun b => rfl, ?_, fun b => rfl, rfl, ?_, ?_, ?_⟩
  · intro a b ha
    simp [getLocator, jsOrStr, ha]
  · intro a ha
    simp [isInitiatorBranch, getLocator, jsOrStr, truthy, ha]
  · intro h myId hne hm
    simp [simpleJoinAttempts, getLocator, jsOrStr, hne, hm]
  · intro h myId t hne hm
    simp [galleryJoinAttempts, getLocator, jsOrStr, hne, hm, List.mem_filter,
          Bool.and_eq_true, bne_iff_ne, and_assoc]

/-- C8 witness: a plain single-identifier locator yields one attempt. -/
theorem locator_selection_and_join_attempts_witness :
    simpleJoinAttempts (some "host1") none "join1" = ["host1"] :=
  locator_selection_and_join_attempts.2.2.2.2.2.1 "host1" "join1" (by decide) (by decide)

/-- C8 counterexample: with the comma-separated locator `"a,b"` the
SimplePeerManager makes a single attempt to the undivided string `"a,b"`;
the distinct entries `a` and `b` trigger no attempt of their own. -/
theorem comma_list_single_attempt_cex :
    simpleJoinAttempts (some "a,b") none "me" = ["a,b"]
    ∧ splitComma "a,b" = ["a", "b"]
    ∧ "a" ∉ simpleJoinAttempts (some "a,b") none "me" := by decide

theorem applyMsgs_announces_known (m : ManagerState) (f d : String) (hd : d ≠ m.myId) :
    ∀ (rest : List Ann) (g : GalleryState) (cur : Player),
      g.existingPlayers.contains d = true →
      getKey g.players d = some cur →
      getKey (applyMsgs m g f (rest.map (fun a => announceMsg d a.1 a.2.1 a.2.2))).players d
          = some { cur with position := lastPos cur.position rest }
      ∧ countKey (applyMsgs m g f (rest.map (fun a => announceMsg d a.1 a.2.1 a.2.2))).players d
          = countKey g.players d := by
  intro rest
  induction rest with
  | nil =>
      intro g cur hc hg
      exact ⟨hg, rfl⟩
  | cons a rest ih =>
      intro g cur hc hg
      have hstep : (routeData m g f (some (announceMsg d a.1 a.2.1 a.2.2))).1
          = { g with players := setKey g.players d { cur with position := a.2.2 } } := by
        simp only [routeData, announceMsg]
        rw [if_neg (by simpa using hd)]
        simp only [Option.getD_some, handlePlayerJoined]
        rw [if_pos hc, hg]
      have happ : applyMsgs m g f
            ((a :: rest).map (fun a => announceMsg d a.1 a.2.1 a.2.2))
          = applyMsgs m ((routeData m g f (some (announceMsg d a.1 a.2.1 a.2.2))).1) f
              (rest.map (fun a => announceMsg d a.1 a.2.1 a.2.2)) := rfl
      rw [happ, hstep]
      have hany : g.players.any (fun kv => kv.1 == d) = true := any_of_getKey_some hg
      obtain ⟨ih1, ih2⟩ := ih { g with players := setKey g.players d { cur with position := a.2.2 } }
        { cur with position := a.2.2 } hc (getKey_setKey_self g.players d _)
      refine ⟨ih1, ?_⟩
      rw [ih2]
      exact countKey_setKey_of_any g.players d _ hany

/-- C4: an announce carrying the local identifier leaves the state unchanged
with no effects; and for every sequence of announces for one remote
identifier the Participant set holds exactly one entry for it, whose
position is the most recent announce's but whose display name and color are
those of the first announce (subsequent announces update position only). -/
theorem presence_announce_entry_behavior :
    (∀ (m : ManagerState) (g : GalleryState) (fromPeer : String) (pd : PlayerInfoData),
        pd.id = some m.myId →
        routeData m g fromPeer (some (Msg.playerInfo pd)) = (g, noEffects))
  ∧ (∀ (m : ManagerState) (g : GalleryState) (f d : String) (first : Ann) (rest : List Ann),
        d ≠ m.myId →
        g.existingPlayers.contains d = false →
        g.players.any (fun kv => kv.1 == d) = false →
        countKey (applyMsgs m g f
            ((first :: rest).map (fun a => announceMsg d a.1 a.2.1 a.2.2))).players d = 1
      ∧ getKey (applyMsgs m g f
            ((first :: rest).map (fun a => announceMsg d a.1 a.2.1 a.2.2))).players d
          = some ⟨some first.1, some first.2.1, lastPos first.2.2 rest, some 0⟩) := by
  constructor
  · intro m g f pd h
    simp [routeData, h]
  · intro m g f d first rest hd hc hp
    have hstep : (routeData m g f (some (announceMsg d first.1 first.2.1 first.2.2))).1
        = { g with existingPlayers := d :: g.existingPlayers,
                   players := setKey g.players d
                     ⟨some first.1, some first.2.1, first.2.2, some 0⟩ } := by
      simp only [routeData, announceMsg]
      rw [if_neg (by simpa using hd)]
      simp only [Option.getD_some, handlePlayerJoined]
      rw [if_neg (by simpa using hc)]
    have happ : applyMsgs m g f
          ((first :: rest).map (fun a => announceMsg d a.1 a.2.1 a.2.2))
        = applyMsgs m ((routeData m g f (some (announceMsg d first.1 first.2.1 first.2.2))).1) f
            (rest.map (fun a => announceMsg d a.1 a.2.1 a.2.2)) := rfl
    rw [happ, hstep]
    have hc1 : (d :: g.existingPlayers).contains d = true := by simp
    obtain ⟨ih1, ih2⟩ := applyMsgs_announces_known m f d hd rest
      { g with existingPlayers := d :: g.existingPlayers,
               players := setKey g.players d ⟨some first.1, some first.2.1, first.2.2, some 0⟩ }
      ⟨some first.1, some first.2.1, first.2.2, some 0⟩ hc1
      (getKey_setKey_self g.players d _)
    refine ⟨?_, ih1⟩
    rw [ih2, countKey_setKey_of_not_any g.players d _ hp,
        countKey_eq_zero_of_not_any g.players d hp]

/-- C4 witness: two well-formed announces for the fresh identifier `E`
leave exactly one entry for `E`. -/
theorem presence_announce_entry_behavior_witness :
    countKey (applyMsgs mgrPresence galPresence "B"
        ((("u1", "c1", posOne) :: [("u2", "c2", posTwo)]).map
          (fun a => announceMsg "E" a.1 a.2.1 a.2.2))).players "E" = 1 :=
  (presence_announce_entry_behavior.2 mgrPresence galPresence "B" "E" ("u1", "c1", posOne)
    [("u2", "c2", posTwo)] (by decide) (by decide) (by decide)).1

/-- C4 counterexample: after two announces for `D` with different usernames
and colors, the stored entry keeps the first username and color while taking
the last position — the claim that all fields equal the most recent announce
is false. -/
theorem presence_announce_last_write_cex :
    getKey (applyMsgs mgrPresence galPresence "B"
        [announceMsg "D" "u1" "c1" posOne, announceMsg "D" "u2" "c2" posTwo]).players "D"
      = some ⟨some "u1", some "c1", posTwo, some 0⟩
    ∧ ("u1" : String) ≠ "u2" := by decide

end ArMesh
